import Mathlib

/-!
# Verification of the scroll byte-access layer

A shallow embedding of the scroll crate's byte-buffer read/write layer.
The repository's `src/lib.rs` declares the modules `pread`, `pwrite`,
`greater` (cursor variants), `buffer`, `error`, `endian` and `leb128`,
but only `lib.rs` itself (doc examples and the test suite) is present in
the source tree; the module bodies are absent.  Where a definition below
embeds one of those absent bodies it is modelled from the specification
and cross-checked against the concrete doc examples and tests that are
present in `lib.rs`.

Bytes are modelled as `Nat` values below 256 inside a `List Nat`;
machine integers are `Nat` with explicit `% 256` / bounds `< 256 ^ w`
where overflow matters.  Fallible operations return `Except ScrollError`.
-/

namespace Scroll

/-- Endianness tag (the `endian` module is absent from src; modelled from
the spec: byte-order convention for multi-byte numeric values, big or
little). `scroll::BE` is `big`, `scroll::LE` is `little`. -/
inductive Endian where
  | big : Endian
  | little : Endian
deriving Repr, DecidableEq

/-- Modelled from the spec: default contexts for built-in numeric types
use the host machine's byte order.  The test `pread_into` in `lib.rs`
asserts `0xef7e` for bytes `[0x7e, 0xef]`, fixing a little-endian host. -/
def NATIVE : Endian := Endian.little

/-- Error taxonomy (the `error` module is absent from src; modelled from
the spec §7): a bounds error carrying offset, requested size and buffer
length, and an encoding error for structural violations (invalid UTF-8,
LEB128 overflow).  Caller-defined external errors are a separate type. -/
inductive ScrollError where
  | badOffset (offset : Nat) (size : Nat) (len : Nat) : ScrollError
  | badEncoding : ScrollError
deriving Repr, DecidableEq

/-- Combine bytes least-significant first into a natural number. -/
def fromBytesLE : List Nat → Nat
  | [] => 0
  | b :: bs => b + 256 * fromBytesLE bs

/-- The `w` little-endian bytes of `v` (each reduced mod 256). -/
def uintBytesLE : Nat → Nat → List Nat
  | 0, _ => []
  | w + 1, v => v % 256 :: uintBytesLE w (v / 256)

/-- Modelled from the spec (the `pread` module is absent from src):
bounds-checked fixed-width read of a `w`-byte unsigned integer at
`offset`; the byte span is permuted according to the context's
endianness.  `O + N ≤ len` is required, else a bounds error. -/
def pread_uint (buf : List Nat) (offset w : Nat) (e : Endian) :
    Except ScrollError Nat :=
  if offset + w ≤ buf.length then
    let bytes := (buf.drop offset).take w
    match e with
    | Endian.little => Except.ok (fromBytesLE bytes)
    | Endian.big => Except.ok (fromBytesLE bytes.reverse)
  else
    Except.error (ScrollError.badOffset offset w buf.length)

/-- Modelled from the spec: `pread_into` uses the target type's default
context, which for built-in numeric types is the host byte order. -/
def pread_into_uint (buf : List Nat) (offset w : Nat) :
    Except ScrollError Nat :=
  pread_uint buf offset w NATIVE

/-- Modelled from the spec (the `pwrite` module is absent from src):
bounds-checked fixed-width write of the `w`-byte value `v` at `offset`
into a fixed-size buffer.  Per the test suite in `lib.rs`
(`let () = b.pwrite::<u16>(0xdead, 2, BE).unwrap()` and
`TryIntoCtx::try_into_ctx -> Result<(), Error>`), a successful write
returns `()`; the mutated buffer is made explicit here because the
embedding is pure. -/
def pwrite_uint (buf : List Nat) (v offset w : Nat) (e : Endian) :
    Except ScrollError (Unit × List Nat) :=
  if offset + w ≤ buf.length then
    let bytes := match e with
      | Endian.little => uintBytesLE w v
      | Endian.big => (uintBytesLE w v).reverse
    Except.ok ((), buf.take offset ++ bytes ++ buf.drop (offset + w))
  else
    Except.error (ScrollError.badOffset offset w buf.length)

/-- Modelled from the spec: `pread_slice::<[u8]>` returns a zero-copy
view of `count` bytes starting at `offset`, bounds-checked. -/
def pread_slice_bytes (buf : List Nat) (offset count : Nat) :
    Except ScrollError (List Nat) :=
  if offset + count ≤ buf.length then
    Except.ok ((buf.drop offset).take count)
  else
    Except.error (ScrollError.badOffset offset count buf.length)

/-- Is `b` a UTF-8 continuation byte (`0x80..=0xBF`)? -/
def utf8Cont (b : Nat) : Bool := 128 ≤ b && b < 192

/-- UTF-8 validity of a byte sequence (RFC 3629: no overlong forms, no
surrogates, max `U+10FFFF`), as Rust's `str::from_utf8` checks it. -/
def validUtf8 : List Nat → Bool
  | [] => true
  | b :: bs =>
    if b < 0x80 then validUtf8 bs
    else if b < 0xC2 then false
    else if b < 0xE0 then
      match bs with
      | c1 :: rest => utf8Cont c1 && validUtf8 rest
      | [] => false
    else if b = 0xE0 then
      match bs with
      | c1 :: c2 :: rest =>
        (0xA0 ≤ c1 && c1 < 0xC0) && utf8Cont c2 && validUtf8 rest
      | _ => false
    else if b = 0xED then
      match bs with
      | c1 :: c2 :: rest =>
        (0x80 ≤ c1 && c1 < 0xA0) && utf8Cont c2 && validUtf8 rest
      | _ => false
    else if b < 0xF0 then
      match bs with
      | c1 :: c2 :: rest => utf8Cont c1 && utf8Cont c2 && validUtf8 rest
      | _ => false
    else if b = 0xF0 then
      match bs with
      | c1 :: c2 :: c3 :: rest =>
        (0x90 ≤ c1 && c1 < 0xC0) && utf8Cont c2 && utf8Cont c3 && validUtf8 rest
      | _ => false
    else if b < 0xF4 then
      match bs with
      | c1 :: c2 :: c3 :: rest =>
        utf8Cont c1 && utf8Cont c2 && utf8Cont c3 && validUtf8 rest
      | _ => false
    else if b = 0xF4 then
      match bs with
      | c1 :: c2 :: c3 :: rest =>
        (0x80 ≤ c1 && c1 < 0x90) && utf8Cont c2 && utf8Cont c3 && validUtf8 rest
      | _ => false
    else false

/-- Modelled from the spec (the `pread` module is absent from src):
`pread_slice::<str>` additionally requires the selected byte range to be
valid UTF-8, else an encoding error; the returned string is exactly
those bytes viewed as text (represented here by the byte list). -/
def pread_slice_str (buf : List Nat) (offset count : Nat) :
    Except ScrollError (List Nat) :=
  if offset + count ≤ buf.length then
    let bytes := (buf.drop offset).take count
    if validUtf8 bytes then Except.ok bytes
    else Except.error ScrollError.badEncoding
  else
    Except.error (ScrollError.badOffset offset count buf.length)

/-- Modelled from the spec (the `leb128` module is absent from src):
LEB128 decode core over the remaining bytes.  Accumulates 7-bit groups
least-significant first; stops when a byte with the continuation bit
clear is read; returns an encoding (overflow) error as soon as the
accumulated bit width would exceed the 64-bit target width — that is,
when the incoming group starts past bit 63, or when adding it would make
the accumulated value reach `2 ^ 64` (so at shift 63 only the groups 0
and 1 are accepted).  Running out of bytes yields a bounds error
carrying the absolute position `pos` of the missing byte, the requested
size 1, and the buffer length `len`.  `count` tracks the bytes consumed
so far. -/
def uleb128Core :
    List Nat → Nat → Nat → Nat → Nat → Nat → Except ScrollError (Nat × Nat)
  | [], pos, len, _, _, _ => Except.error (ScrollError.badOffset pos 1 len)
  | b :: bs, pos, len, shift, acc, count =>
    if 64 ≤ shift ∨ 2 ^ 64 ≤ acc + b % 128 * 2 ^ shift then
      Except.error ScrollError.badEncoding
    else
      let acc := acc + b % 128 * 2 ^ shift
      if b < 128 then Except.ok (acc, count + 1)
      else uleb128Core bs (pos + 1) len (shift + 7) acc (count + 1)

/-- Modelled from the spec: `pread::<Uleb128>(offset, LEB128)` decodes
an unsigned LEB128 value starting at `offset`, returning the value and
the number of bytes consumed. -/
def uleb128Decode (buf : List Nat) (offset : Nat) :
    Except ScrollError (Nat × Nat) :=
  uleb128Core (buf.drop offset) offset buf.length 0 0 0

/-- Modelled from the spec (the `greater` module is absent from src):
a cursor-based operation wraps an offset-based one; on success the
position advances by the `step` bytes consumed or produced, on failure
it is returned unchanged. -/
def toCursor {α : Type} (step pos : Nat) (r : Except ScrollError α) :
    Except ScrollError α × Nat :=
  match r with
  | Except.ok v => (Except.ok v, pos + step)
  | Except.error err => (Except.error err, pos)

/-- Modelled from the spec: `gread` of a `w`-byte integer at the cursor. -/
def gread_uint (buf : List Nat) (pos w : Nat) (e : Endian) :
    Except ScrollError Nat × Nat :=
  toCursor w pos (pread_uint buf pos w e)

/-- Modelled from the spec: `gread_into` uses the default (host) context. -/
def gread_into_uint (buf : List Nat) (pos w : Nat) :
    Except ScrollError Nat × Nat :=
  toCursor w pos (pread_into_uint buf pos w)

/-- Modelled from the spec: `gread_slice::<[u8]>` at the cursor, advancing
by `count` on success. -/
def gread_slice_bytes (buf : List Nat) (pos count : Nat) :
    Except ScrollError (List Nat) × Nat :=
  toCursor count pos (pread_slice_bytes buf pos count)

/-- Modelled from the spec: `gread_slice::<str>` at the cursor. -/
def gread_slice_str (buf : List Nat) (pos count : Nat) :
    Except ScrollError (List Nat) × Nat :=
  toCursor count pos (pread_slice_str buf pos count)

/-- Modelled from the spec: `gread_inout` bulk-copies bytes from the
buffer into a caller-supplied mutable view `dst`, advancing the cursor by
the view's length; a bounds error when insufficient bytes remain.  The
filled view is returned since the embedding is pure. -/
def gread_inout (buf : List Nat) (pos : Nat) (dst : List Nat) :
    Except ScrollError (List Nat) × Nat :=
  toCursor dst.length pos (pread_slice_bytes buf pos dst.length)

/-- Modelled from the spec: `gwrite` writes a `w`-byte value at the
cursor, then advances the position by the bytes produced. -/
def gwrite_uint (buf : List Nat) (v pos w : Nat) (e : Endian) :
    Except ScrollError (Unit × List Nat) × Nat :=
  toCursor w pos (pwrite_uint buf v pos w e)

/-- Modelled from the spec (the `buffer` module is absent from src):
`Buffer` wraps existing bytes, exposing only length, indexed access and
slicing; all decode/encode logic is layered on top through the same
conversion implementations used for raw byte slices. -/
structure Buffer where
  bytes : List Nat
deriving Repr, DecidableEq

/-- `Pread` on a `Buffer` reads through to the wrapped bytes. -/
def Buffer.preadUint (b : Buffer) (offset w : Nat) (e : Endian) :
    Except ScrollError Nat :=
  pread_uint b.bytes offset w e

/-- `pread_slice` on a `Buffer` reads through to the wrapped bytes. -/
def Buffer.preadSliceBytes (b : Buffer) (offset count : Nat) :
    Except ScrollError (List Nat) :=
  pread_slice_bytes b.bytes offset count

/-- `pread::<Uleb128>` on a `Buffer` reads through to the wrapped bytes. -/
def Buffer.ulebDecode (b : Buffer) (offset : Nat) :
    Except ScrollError (Nat × Nat) :=
  uleb128Decode b.bytes offset

/-- `Gread` on a `Buffer` reads through to the wrapped bytes. -/
def Buffer.greadUint (b : Buffer) (pos w : Nat) (e : Endian) :
    Except ScrollError Nat × Nat :=
  gread_uint b.bytes pos w e

/-- `Pwrite` on a `Buffer` writes through to the wrapped bytes. -/
def Buffer.pwriteUint (b : Buffer) (v offset w : Nat) (e : Endian) :
    Except ScrollError (Unit × Buffer) :=
  match pwrite_uint b.bytes v offset w e with
  | Except.ok (_, bs) => Except.ok ((), Buffer.mk bs)
  | Except.error err => Except.error err

/-- The caller-defined opaque error of the test suite's `Foo` type
(`ExternalError` in `lib.rs`): every scroll error converts into it. -/
inductive ExternalError where
  | externalError : ExternalError
deriving Repr, DecidableEq

/-- The test suite's `TryFromCtx for Foo` (`lib.rs` lines 250-260):
fails with `ExternalError` when `offset > 2`, otherwise reads a `u16`,
converting any scroll error into `ExternalError` via `From`. -/
def fooTryFromCtx (this : List Nat) (offset : Nat) (e : Endian) :
    Except ExternalError Nat :=
  if offset > 2 then Except.error ExternalError.externalError
  else
    match pread_uint this offset 2 e with
    | Except.ok n => Except.ok n
    | Except.error _ => Except.error ExternalError.externalError

/-- The test suite's `TryIntoCtx for Foo` (`lib.rs` lines 238-248):
fails with `ExternalError` when `offset > 2`, otherwise writes the
wrapped `u16`, converting any scroll error into `ExternalError`. -/
def fooTryIntoCtx (v : Nat) (this : List Nat) (offset : Nat) (e : Endian) :
    Except ExternalError (Unit × List Nat) :=
  if offset > 2 then Except.error ExternalError.externalError
  else
    match pwrite_uint this v offset 2 e with
    | Except.ok r => Except.ok r
    | Except.error _ => Except.error ExternalError.externalError

/-- Modelled from the spec (the `pread` module is absent from src):
the generic `pread::<Foo>` locates `Foo`'s conversion implementation and
returns its outcome — an error value supplied by the implementation is
propagated unchanged to the caller. -/
def pread_Foo (buf : List Nat) (offset : Nat) (e : Endian) :
    Except ExternalError Nat :=
  fooTryFromCtx buf offset e

/-- Modelled from the spec: the generic `pwrite::<Foo>`, propagating the
implementation's error value unchanged. -/
def pwrite_Foo (v : Nat) (buf : List Nat) (offset : Nat) (e : Endian) :
    Except ExternalError (Unit × List Nat) :=
  fooTryIntoCtx v buf offset e

/-! ## Helper lemmas -/

theorem length_uintBytesLE (w : Nat) : ∀ v, (uintBytesLE w v).length = w := by
  induction w with
  | zero => intro v; rfl
  | succ w ih => intro v; simp [uintBytesLE, ih]

theorem fromBytesLE_uintBytesLE (w : Nat) :
    ∀ v, v < 256 ^ w → fromBytesLE (uintBytesLE w v) = v := by
  induction w with
  | zero =>
    intro v h
    have hv : v = 0 := Nat.lt_one_iff.mp (by simpa using h)
    subst hv; rfl
  | succ w ih =>
    intro v h
    have hd : v / 256 < 256 ^ w := by
      rw [Nat.div_lt_iff_lt_mul (by norm_num : (0:Nat) < 256)]
      calc v < 256 ^ (w + 1) := h
        _ = 256 ^ w * 256 := by ring
    simp only [uintBytesLE, fromBytesLE, ih _ hd]
    omega

theorem splice_length (buf B : List Nat) (offset w : Nat)
    (hB : B.length = w) (h : offset + w ≤ buf.length) :
    (buf.take offset ++ B ++ buf.drop (offset + w)).length = buf.length := by
  simp only [List.length_append, List.length_take, List.length_drop, hB]
  omega

theorem splice_extract (buf B : List Nat) (offset w : Nat)
    (hB : B.length = w) (h : offset + w ≤ buf.length) :
    ((buf.take offset ++ B ++ buf.drop (offset + w)).drop offset).take w = B := by
  have hpre : (buf.take offset).length = offset := by
    rw [List.length_take]; omega
  rw [List.append_assoc, List.drop_left' hpre, List.take_left' hB]

theorem pread_uint_le_ok (buf : List Nat) (offset w : Nat)
    (h : offset + w ≤ buf.length) :
    pread_uint buf offset w Endian.little =
      Except.ok (fromBytesLE ((buf.drop offset).take w)) := by
  simp [pread_uint, h]

theorem pread_uint_be_ok (buf : List Nat) (offset w : Nat)
    (h : offset + w ≤ buf.length) :
    pread_uint buf offset w Endian.big =
      Except.ok (fromBytesLE ((buf.drop offset).take w).reverse) := by
  simp [pread_uint, h]

theorem pwrite_uint_le_ok (buf : List Nat) (v offset w : Nat)
    (h : offset + w ≤ buf.length) :
    pwrite_uint buf v offset w Endian.little =
      Except.ok ((), buf.take offset ++ uintBytesLE w v ++ buf.drop (offset + w)) := by
  simp [pwrite_uint, h]

theorem pwrite_uint_be_ok (buf : List Nat) (v offset w : Nat)
    (h : offset + w ≤ buf.length) :
    pwrite_uint buf v offset w Endian.big =
      Except.ok ((), buf.take offset ++ (uintBytesLE w v).reverse ++ buf.drop (offset + w)) := by
  simp [pwrite_uint, h]

/-! ## Claim theorems -/

/-- C1: for every fixed-width numeric type (width `w` bytes, a value `v`
being its `8 w`-bit two's-complement bit pattern, so `v < 256 ^ w`
covers u16/i16/u32/i32/u64/i64 and the other widths), every in-bounds
offset and both endiannesses, `pwrite` followed by `pread` at the same
offset and context returns exactly `v`. -/
theorem pwrite_pread_roundtrip (buf : List Nat) (w v offset : Nat) (e : Endian)
    (hb : offset + w ≤ buf.length) (hv : v < 256 ^ w) :
    ∃ buf', pwrite_uint buf v offset w e = Except.ok ((), buf') ∧
      pread_uint buf' offset w e = Except.ok v := by
  cases e with
  | little =>
    refine ⟨_, pwrite_uint_le_ok buf v offset w hb, ?_⟩
    have hB : (uintBytesLE w v).length = w := length_uintBytesLE w v
    have hlen := splice_length buf (uintBytesLE w v) offset w hB hb
    rw [pread_uint_le_ok _ offset w (by omega),
      splice_extract buf (uintBytesLE w v) offset w hB hb,
      fromBytesLE_uintBytesLE w v hv]
  | big =>
    refine ⟨_, pwrite_uint_be_ok buf v offset w hb, ?_⟩
    have hB : (uintBytesLE w v).reverse.length = w := by
      rw [List.length_reverse]; exact length_uintBytesLE w v
    have hlen := splice_length buf (uintBytesLE w v).reverse offset w hB hb
    rw [pread_uint_be_ok _ offset w (by omega),
      splice_extract buf (uintBytesLE w v).reverse offset w hB hb,
      List.reverse_reverse, fromBytesLE_uintBytesLE w v hv]

/-- Witness for C1 at a concrete input: writing the u16 `0xbeef` at
offset 0 of an 8-byte buffer in big-endian order and reading it back. -/
theorem pwrite_pread_roundtrip_witness :
    ∃ buf', pwrite_uint [0, 0, 0, 0, 0, 0, 0, 0] 0xbeef 0 2 Endian.big =
        Except.ok ((), buf') ∧
      pread_uint buf' 0 2 Endian.big = Except.ok 0xbeef :=
  pwrite_pread_roundtrip [0, 0, 0, 0, 0, 0, 0, 0] 2 0xbeef 0 Endian.big
    (by decide) (by decide)

/-- C2: whenever `offset + n` exceeds the buffer length, every checked
read (`pread`, `pread_into`, `pread_slice` for bytes and for `str`) and
the checked write into a fixed-size buffer return a bounds error carrying
the offset, the requested size and the buffer length — never a value. -/
theorem checked_ops_bounds_error (buf : List Nat) (offset n v : Nat)
    (e : Endian) (h : buf.length < offset + n) :
    pread_uint buf offset n e =
        Except.error (ScrollError.badOffset offset n buf.length) ∧
    pread_into_uint buf offset n =
        Except.error (ScrollError.badOffset offset n buf.length) ∧
    pread_slice_bytes buf offset n =
        Except.error (ScrollError.badOffset offset n buf.length) ∧
    pread_slice_str buf offset n =
        Except.error (ScrollError.badOffset offset n buf.length) ∧
    pwrite_uint buf v offset n e =
        Except.error (ScrollError.badOffset offset n buf.length) := by
  have hn : ¬ (offset + n ≤ buf.length) := by omega
  refine ⟨?_, ?_, ?_, ?_, ?_⟩ <;>
    simp [pread_uint, pread_into_uint, pread_slice_bytes, pread_slice_str,
      pwrite_uint, hn]

/-- Witness for C2 at a concrete input: reading or writing 3 bytes at
offset 0 of a 2-byte buffer yields the bounds error. -/
theorem checked_ops_bounds_error_witness :
    pread_uint [1, 2] 0 3 Endian.big =
        Except.error (ScrollError.badOffset 0 3 2) ∧
    pread_into_uint [1, 2] 0 3 =
        Except.error (ScrollError.badOffset 0 3 2) ∧
    pread_slice_bytes [1, 2] 0 3 =
        Except.error (ScrollError.badOffset 0 3 2) ∧
    pread_slice_str [1, 2] 0 3 =
        Except.error (ScrollError.badOffset 0 3 2) ∧
    pwrite_uint [1, 2] 7 0 3 Endian.big =
        Except.error (ScrollError.badOffset 0 3 2) :=
  checked_ops_bounds_error [1, 2] 0 3 7 Endian.big (by decide)

theorem toCursor_ok_advances {α : Type} (step pos : Nat)
    (r : Except ScrollError α) (x : α) (p' : Nat)
    (h : toCursor step pos r = (Except.ok x, p')) : p' = pos + step := by
  cases r with
  | ok y =>
    simp only [toCursor, Prod.mk.injEq] at h
    omega
  | error err => simp [toCursor] at h

theorem toCursor_error_unchanged {α : Type} (step pos : Nat)
    (r : Except ScrollError α) (err : ScrollError) (p' : Nat)
    (h : toCursor step pos r = (Except.error err, p')) : p' = pos := by
  cases r with
  | ok y => simp [toCursor] at h
  | error e2 =>
    simp only [toCursor, Prod.mk.injEq] at h
    omega

/-- C3: every cursor-based operation (`gread`, `gread_into`,
`gread_slice` for bytes and `str`, `gread_inout`, `gwrite`) advances the
mutable position by exactly the bytes consumed or produced (`w` for a
`w`-byte integer, `count` for a slice, the view length for `gread_inout`)
on success, and leaves the position exactly unchanged on failure. -/
theorem cursor_advance (buf dst : List Nat) (pos w count v : Nat)
    (e : Endian) :
    (∀ x p', gread_uint buf pos w e = (Except.ok x, p') → p' = pos + w) ∧
    (∀ err p', gread_uint buf pos w e = (Except.error err, p') → p' = pos) ∧
    (∀ x p', gread_into_uint buf pos w = (Except.ok x, p') → p' = pos + w) ∧
    (∀ err p', gread_into_uint buf pos w = (Except.error err, p') → p' = pos) ∧
    (∀ x p', gread_slice_bytes buf pos count = (Except.ok x, p') →
      p' = pos + count) ∧
    (∀ err p', gread_slice_bytes buf pos count = (Except.error err, p') →
      p' = pos) ∧
    (∀ x p', gread_slice_str buf pos count = (Except.ok x, p') →
      p' = pos + count) ∧
    (∀ err p', gread_slice_str buf pos count = (Except.error err, p') →
      p' = pos) ∧
    (∀ x p', gread_inout buf pos dst = (Except.ok x, p') →
      p' = pos + dst.length) ∧
    (∀ err p', gread_inout buf pos dst = (Except.error err, p') → p' = pos) ∧
    (∀ x p', gwrite_uint buf v pos w e = (Except.ok x, p') → p' = pos + w) ∧
    (∀ err p', gwrite_uint buf v pos w e = (Except.error err, p') →
      p' = pos) := by
  refine ⟨?_, ?_, ?_, ?_, ?_, ?_, ?_, ?_, ?_, ?_, ?_, ?_⟩ <;>
    intro a p' h
  · exact toCursor_ok_advances w pos _ a p' h
  · exact toCursor_error_unchanged w pos (pread_uint buf pos w e) a p' h
  · exact toCursor_ok_advances w pos _ a p' h
  · exact toCursor_error_unchanged w pos (pread_into_uint buf pos w) a p' h
  · exact toCursor_ok_advances count pos _ a p' h
  · exact toCursor_error_unchanged count pos (pread_slice_bytes buf pos count)
      a p' h
  · exact toCursor_ok_advances count pos _ a p' h
  · exact toCursor_error_unchanged count pos (pread_slice_str buf pos count)
      a p' h
  · exact toCursor_ok_advances dst.length pos _ a p' h
  · exact toCursor_error_unchanged dst.length pos
      (pread_slice_bytes buf pos dst.length) a p' h
  · exact toCursor_ok_advances w pos _ a p' h
  · exact toCursor_error_unchanged w pos (pwrite_uint buf v pos w e) a p' h

/-- Witness for C3 at concrete inputs: a successful 2-byte `gread` at
position 0 of `[1, 2]` ends at position 2, and a failing 3-byte
`gread_slice` on the same buffer leaves the position at 0. -/
theorem cursor_advance_witness : (2 : Nat) = 0 + 2 ∧ (0 : Nat) = 0 :=
  ⟨(cursor_advance [1, 2] [] 0 2 0 0 Endian.little).1 0x0201 2 rfl,
   (cursor_advance [1, 2] [] 0 2 3 0 Endian.little).2.2.2.2.2.1
     (ScrollError.badOffset 0 3 2) 0 rfl⟩

/-- C4: over the buffer `[0xDE, 0xAD, 0xBE, 0xEF]`, a u32 read at offset
0 with big-endian context returns `0xDEADBEEF`, and a u16 read at offset
2 with little-endian context returns `0xEFBE`. -/
theorem pread_concrete_deadbeef :
    pread_uint [0xde, 0xad, 0xbe, 0xef] 0 4 Endian.big =
        Except.ok 0xdeadbeef ∧
    pread_uint [0xde, 0xad, 0xbe, 0xef] 2 2 Endian.little =
        Except.ok 0xefbe :=
  ⟨rfl, rfl⟩

/-- C5: decoding `[0xDE, 0xAD, 0xBE, 0xEF, 0x01]` (the first four bytes
already carry the continuation bit `0x80`) as an unsigned LEB128 from
offset 0 succeeds with value `0x01DEF96DE`, consuming exactly 5 bytes. -/
theorem uleb128_concrete :
    uleb128Decode [0xde, 0xad, 0xbe, 0xef, 0x01] 0 =
      Except.ok (0x1def96de, 5) := rfl

/-- C6: `pread_slice::<str>(offset, count)` succeeds and returns exactly
the `count` selected bytes viewed as text if and only if the range is in
bounds and those bytes are valid UTF-8; on in-bounds invalid UTF-8 it
returns the encoding error, and out of bounds the bounds error.  The
operation is read-only (it takes the buffer immutably and returns no
buffer), so the buffer is never mutated. -/
theorem pread_slice_str_spec (buf : List Nat) (offset count : Nat) :
    (∀ bs, pread_slice_str buf offset count = Except.ok bs ↔
      offset + count ≤ buf.length ∧ bs = (buf.drop offset).take count ∧
        validUtf8 bs = true) ∧
    (offset + count ≤ buf.length →
      validUtf8 ((buf.drop offset).take count) = false →
      pread_slice_str buf offset count =
        Except.error ScrollError.badEncoding) ∧
    (buf.length < offset + count →
      pread_slice_str buf offset count =
        Except.error (ScrollError.badOffset offset count buf.length)) := by
  refine ⟨?_, ?_, ?_⟩
  · intro bs
    by_cases hb : offset + count ≤ buf.length
    · by_cases hu : validUtf8 ((buf.drop offset).take count) = true
      · simp only [pread_slice_str, if_pos hb, if_pos hu, Except.ok.injEq]
        constructor
        · intro h; exact ⟨hb, h.symm, h ▸ hu⟩
        · intro h; exact h.2.1.symm
      · simp only [pread_slice_str, if_pos hb,
          if_neg hu, reduceCtorEq, false_iff, not_and]
        intro _ hbs hv
        exact hu (hbs ▸ hv)
    · simp only [pread_slice_str, if_neg hb, reduceCtorEq, false_iff, not_and]
      intro h
      exact absurd h hb
  · intro hb hu
    simp [pread_slice_str, hb, hu]
  · intro hb
    have hn : ¬ (offset + count ≤ buf.length) := by omega
    simp [pread_slice_str, hn]

/-- Witness for C6 at concrete inputs: over `[0x45, 0x2A, 0x44]` (the
test vector decoded to the string "E*"), the first two bytes are valid
UTF-8 and are returned; over `[0xFF, 0xFE]` the bytes are invalid UTF-8
and the encoding error is returned. -/
theorem pread_slice_str_spec_witness :
    pread_slice_str [0x45, 0x2a, 0x44] 0 2 = Except.ok [0x45, 0x2a] ∧
    pread_slice_str [0xff, 0xfe] 0 2 =
      Except.error ScrollError.badEncoding :=
  ⟨((pread_slice_str_spec [0x45, 0x2a, 0x44] 0 2).1 [0x45, 0x2a]).mpr
      ⟨by decide, by decide, by decide⟩,
   (pread_slice_str_spec [0xff, 0xfe] 0 2).2.1 (by decide) (by decide)⟩

/-- C7: the context-free `pread_into` equals `pread` with the built-in
numeric types' default context, the host byte order (little-endian on
the test suite's host): over `[0x7E, 0xEF]`, `pread_into::<u16>(0)`
returns `0xEF7E`. -/
theorem pread_into_default_ctx :
    (∀ buf offset w, pread_into_uint buf offset w =
      pread_uint buf offset w NATIVE) ∧
    NATIVE = Endian.little ∧
    pread_into_uint [0x7e, 0xef] 0 2 = Except.ok 0xef7e :=
  ⟨fun _ _ _ => rfl, rfl, rfl⟩

/-- C8 counterexample: a successful checked write does not return the
number of bytes written.  The concrete 2-byte write of `0xDEAD` at
offset 2 succeeds with payload `()` (the unit value), and a successful
1-byte write returns the identical payload, so the success payload of
`pwrite` cannot report a byte count. -/
theorem pwrite_unit_payload_counterexample :
    pwrite_uint [42, 0, 0, 0] 0xdead 2 2 Endian.big =
      Except.ok ((), [42, 0, 0xde, 0xad]) ∧
    Except.map Prod.fst (pwrite_uint [42, 0, 0, 0] 0xdead 2 2 Endian.big) =
      Except.map Prod.fst (pwrite_uint [0, 0, 0, 0] 42 0 1 Endian.little) :=
  ⟨rfl, rfl⟩

/-- C8 amended: a successful checked write `pwrite::<T>(v, O, ctx)` into
a fixed-size buffer returns the unit value `()` (mutating the buffer in
place, its length unchanged); the byte count is not part of the return
value. -/
theorem pwrite_returns_unit (buf : List Nat) (v offset w : Nat) (e : Endian)
    (h : offset + w ≤ buf.length) :
    ∃ buf', pwrite_uint buf v offset w e = Except.ok ((), buf') ∧
      buf'.length = buf.length := by
  cases e with
  | little =>
    exact ⟨_, pwrite_uint_le_ok buf v offset w h,
      splice_length buf (uintBytesLE w v) offset w (length_uintBytesLE w v) h⟩
  | big =>
    refine ⟨_, pwrite_uint_be_ok buf v offset w h, ?_⟩
    exact splice_length buf (uintBytesLE w v).reverse offset w
      (by rw [List.length_reverse]; exact length_uintBytesLE w v) h

/-- Witness for the amended C8 at a concrete input: writing the u16
`0xDEAD` big-endian at offset 2 of a 4-byte buffer succeeds with the
unit payload and a buffer of unchanged length. -/
theorem pwrite_returns_unit_witness :
    ∃ buf', pwrite_uint [42, 0, 0, 0] 0xdead 2 2 Endian.big =
        Except.ok ((), buf') ∧
      buf'.length = ([42, 0, 0, 0] : List Nat).length :=
  pwrite_returns_unit [42, 0, 0, 0] 0xdead 2 2 Endian.big (by decide)

/-- C9: when a user-defined conversion implementation (`TryFromCtx` /
`TryIntoCtx` of the test type `Foo`) fails with its caller-defined
error value, the generic `pread` / `pwrite` call returns exactly that
error value, unchanged; concretely, `pwrite::<Foo>` at offset 3 (where
`Foo`'s implementation rejects offsets above 2) returns `ExternalError`. -/
theorem custom_error_propagated (buf : List Nat) (v offset : Nat)
    (e : Endian) :
    (∀ err, fooTryFromCtx buf offset e = Except.error err →
      pread_Foo buf offset e = Except.error err) ∧
    (∀ err, fooTryIntoCtx v buf offset e = Except.error err →
      pwrite_Foo v buf offset e = Except.error err) ∧
    (2 < offset →
      pwrite_Foo v buf offset e = Except.error ExternalError.externalError) := by
  refine ⟨fun err h => h, fun err h => h, fun h => ?_⟩
  simp [pwrite_Foo, fooTryIntoCtx, h]

/-- Witness for C9 at a concrete input: the test suite's failing write
`pwrite(Foo(0x7f), 3, LE)` over a 4-byte buffer propagates
`ExternalError` unchanged. -/
theorem custom_error_propagated_witness :
    pwrite_Foo 0x7f [0xde, 0xaf, 0, 0] 3 Endian.little =
      Except.error ExternalError.externalError :=
  (custom_error_propagated [0xde, 0xaf, 0, 0] 0x7f 3 Endian.little).2.2
    (by decide)

/-- C10: the `Pread`/`Gread`/`Pwrite` operations act on plain byte
slices, and the `Buffer` wrapper reads and writes through to its wrapped
bytes, so the same operation at the same offset, context, and bytes gives
the same result on a raw slice and on a `Buffer` wrapping those bytes
(for writes, up to rewrapping the mutated bytes). -/
theorem buffer_slice_agree :
    (∀ bytes offset w e, (Buffer.mk bytes).preadUint offset w e =
      pread_uint bytes offset w e) ∧
    (∀ bytes offset count, (Buffer.mk bytes).preadSliceBytes offset count =
      pread_slice_bytes bytes offset count) ∧
    (∀ bytes offset, (Buffer.mk bytes).ulebDecode offset =
      uleb128Decode bytes offset) ∧
    (∀ bytes pos w e, (Buffer.mk bytes).greadUint pos w e =
      gread_uint bytes pos w e) ∧
    (∀ bytes v offset w e, (Buffer.mk bytes).pwriteUint v offset w e =
      Except.map (fun r => ((), Buffer.mk r.2))
        (pwrite_uint bytes v offset w e)) ∧
    (Buffer.mk [0xde, 0xad, 0xbe, 0xef]).preadUint 0 4 Endian.big =
      Except.ok 0xdeadbeef := by
  refine ⟨fun _ _ _ _ => rfl, fun _ _ _ => rfl, fun _ _ => rfl,
    fun _ _ _ _ => rfl, fun bytes v offset w e => ?_, rfl⟩
  cases h : pwrite_uint bytes v offset w e with
  | ok r => simp [Buffer.pwriteUint, h, Except.map]
  | error err => simp [Buffer.pwriteUint, h, Except.map]

end Scroll
